import Mathlib

/-!
Shallow embedding of the zap-shift-server parcel-delivery backend
(`src/index.js`, the repository's primary server; the handlers for
`POST /payments`, `GET /payments`, `PATCH /parcels/:id`, `POST /users`
and `POST /riders`), together with theorems settling the frozen claims
about the payment flow, payment listing, parcel patching, user
registration and rider creation.

Document stores (MongoDB collections) are modelled as Lean lists; a
`findOne` is `List.find?`, an `updateOne` rewrites the first matching
element and reports matched/modified counts, an `insertOne` appends.
Exceptions thrown by an awaited store call (caught by the handler's
`try/catch`, which answers 500) are modelled by explicit failure flags,
one per store call of the handler.
-/

namespace ZapShift

/-- A parcel document: opaque id plus the two status fields the payment
flow touches (`delivery_status`, `payment_status`). Other descriptive
fields are irrelevant to the payment handlers and are carried opaquely. -/
structure Parcel where
  pid : Nat
  payment_status : String
  delivery_status : String
  rest : List (String × String)
deriving DecidableEq, Repr

/-- A payment document, as built by the `POST /payments` handler:
`{ parcelId, email, amount, paymentMethod, transactionId, paid_at }`
(`paid_at_string` duplicates `paid_at` and is elided). -/
structure Payment where
  parcelId : Nat
  email : String
  amount : Nat
  paymentMethod : String
  transactionId : String
  paid_at : Nat
deriving DecidableEq, Repr

/-- The two collections the payment flow reads and writes. -/
structure St where
  parcels : List Parcel
  payments : List Payment
deriving DecidableEq, Repr

/-- One store operation actually executed against a collection, in program
order, as observed by the `POST /payments` handler's awaits (the read-only
duplicate lookup is not a mutation and is not traced). -/
inductive StoreEvent where
  | parcelUpdate (parcelId : Nat)
  | paymentInsert (transactionId : String)
deriving DecidableEq, Repr

/-- Failure injection for the three awaited store calls of
`POST /payments`: a `true` flag makes the corresponding call throw,
landing in the handler's `catch` block (HTTP 500). -/
structure FailSpec where
  findFails : Bool
  updateFails : Bool
  insertFails : Bool
deriving DecidableEq, Repr

/-- The request body of `POST /payments`:
`{ parcelId, email, amount, paymentMethod, transactionId }`. -/
structure PayReq where
  parcelId : Nat
  email : String
  amount : Nat
  paymentMethod : String
  transactionId : String
deriving DecidableEq, Repr

/-- Result of one `POST /payments` call: HTTP status, response message,
`insertedId` when present, the post-state of both stores, and the trace
of mutating store operations executed. -/
structure PayOutcome where
  status : Nat
  message : String
  insertedId : Option Nat
  st : St
  trace : List StoreEvent
deriving DecidableEq, Repr

/-- Both status fields of the parcel read "paid": the `$set` of the
payment flow would not change the document. -/
def isPaid (p : Parcel) : Bool :=
  p.payment_status == "paid" && p.delivery_status == "paid"

/-- `parcelsCollection.updateOne({_id}, {$set: {delivery_status: "paid",
payment_status: "paid"}})`: rewrite the first parcel whose id matches,
returning the new list, `matchedCount` and `modifiedCount` (0 when the
matched document already held both values). -/
def markPaid : List Parcel → Nat → List Parcel × Nat × Nat
  | [], _ => ([], 0, 0)
  | p :: ps, i =>
    if p.pid == i then
      ({ p with payment_status := "paid", delivery_status := "paid" } :: ps,
       1, if isPaid p then 0 else 1)
    else
      let r := markPaid ps i
      (p :: r.1, r.2.1, r.2.2)

/-- `paymentsCollection.findOne({ transactionId })`. -/
def findByTx (payments : List Payment) (tx : String) : Option Payment :=
  payments.find? (fun q => q.transactionId == tx)

/-- The `POST /payments` handler of `src/index.js` (lines 227-266):
(1) duplicate-transaction lookup, answering 409 when a payment with the
same `transactionId` exists; (2) conditional parcel update, answering
404 when `modifiedCount` is 0; (3) payment insertion, answering 201 with
the inserted id; any throwing store call answers 500 from the `catch`,
keeping whatever mutations already committed. -/
def recordPayment (fail : FailSpec) (st : St) (req : PayReq) (now : Nat) :
    PayOutcome :=
  if fail.findFails then
    ⟨500, "Failed to record payment", none, st, []⟩
  else
    match findByTx st.payments req.transactionId with
    | some _ =>
      ⟨409, "Duplicate transaction. Already paid.", none, st, []⟩
    | none =>
      if fail.updateFails then
        ⟨500, "Failed to record payment", none, st, []⟩
      else
        let r := markPaid st.parcels req.parcelId
        if r.2.2 == 0 then
          ⟨404, "Parcel not found or already paid", none,
           ⟨r.1, st.payments⟩, [.parcelUpdate req.parcelId]⟩
        else if fail.insertFails then
          ⟨500, "Failed to record payment", none,
           ⟨r.1, st.payments⟩, [.parcelUpdate req.parcelId]⟩
        else
          ⟨201, "Payment recorded and parcel marked as paid",
           some st.payments.length,
           ⟨r.1, st.payments ++
             [⟨req.parcelId, req.email, req.amount, req.paymentMethod,
               req.transactionId, now⟩]⟩,
           [.parcelUpdate req.parcelId, .paymentInsert req.transactionId]⟩

/-- Result of one `GET /payments` call: HTTP status and, on success, the
body `{ data, total }`; a 403 carries no payment data (`none`). -/
structure ListOutcome where
  status : Nat
  body : Option (List Payment × Nat)
deriving DecidableEq, Repr

/-- The Mongo sort key `{ paid_at: -1 }`: later payments first. -/
def paidDesc (a b : Payment) : Bool := b.paid_at ≤ a.paid_at

/-- The `GET /payments` handler of `src/index.js` (lines 268-293).
`userEmail` is the verified token identity (`req.user.email`); `email`
is the query parameter (absent = `none`). The guard
`req.user.email !== email` answers 403 before any store access;
otherwise the payments matching the email are sorted by `paid_at`
descending, `(page-1)*limit` are skipped and at most `limit` returned,
with `total` the full count for the filter. -/
def getPayments (userEmail : String) (email : Option String)
    (page limit : Nat) (st : St) : ListOutcome :=
  match email with
  | none => ⟨403, none⟩
  | some e =>
    if userEmail == e then
      let matching := st.payments.filter (fun p => p.email == e)
      let data := ((matching.mergeSort paidDesc).drop ((page - 1) * limit)).take limit
      ⟨200, some (data, matching.length)⟩
    else
      ⟨403, none⟩

/-- A request/document body as a JSON-like flat object: an association
list from key to value, first occurrence of a key authoritative. -/
abbrev Doc := List (String × String)

/-- Read a field of a document. -/
def getKey (d : Doc) (k : String) : Option String :=
  (d.find? (fun kv => kv.1 == k)).map (fun kv => kv.2)

/-- Set a field of a document: overwrite every occurrence of the key, or
append the pair when the key is absent (the semantics of both a JS
object-spread override and a Mongo `$set` of one field). -/
def setKey (d : Doc) (k : String) (v : String) : Doc :=
  if (d.find? (fun kv => kv.1 == k)).isSome then
    d.map (fun kv => if kv.1 == k then (k, v) else kv)
  else
    d ++ [(k, v)]

/-- Mongo `$set` with a multi-field update document: set each supplied
field in turn. -/
def setAll (d : Doc) (upd : Doc) : Doc :=
  upd.foldl (fun acc kv => setKey acc kv.1 kv.2) d

/-- True for the four keys the `PATCH /parcels/:id` handler deletes from
the request body before applying it: `_id`, `created_by`, `tracking_id`,
`creation_date`. -/
def isProtectedKey (k : String) : Bool :=
  k == "_id" || k == "created_by" || k == "tracking_id" ||
    k == "creation_date"

/-- The four `delete updatedData.<key>` statements of the handler:
remove every occurrence of the protected keys from the request body. -/
def stripProtected (upd : Doc) : Doc :=
  upd.filter (fun kv => !isProtectedKey kv.1)

/-- `parcelsCollection.updateOne({_id}, {$set: strippedBody})` over a
store of (id, document) pairs: rewrite the first document whose id
matches, returning the new store and `matchedCount`. -/
def patchFirst : List (Nat × Doc) → Nat → Doc → List (Nat × Doc) × Nat
  | [], _, _ => ([], 0)
  | (i, d) :: ps, j, upd =>
    if i == j then ((i, setAll d upd) :: ps, 1)
    else
      let r := patchFirst ps j upd
      ((i, d) :: r.1, r.2)

/-- The `PATCH /parcels/:id` handler of `src/index.js` (lines 151-173):
strip `_id`, `created_by`, `tracking_id`, `creation_date` from the body,
`$set` the remainder on the addressed parcel; 404 when no parcel
matched, 200 otherwise. -/
def patchParcel (store : List (Nat × Doc)) (i : Nat) (body : Doc) :
    Nat × List (Nat × Doc) :=
  let r := patchFirst store i (stripProtected body)
  if r.2 == 0 then (404, store) else (200, r.1)

/-- The request body of `POST /users`; absent JS fields are `none`. -/
structure UserReq where
  name : Option String
  email : Option String
  photo : Option String
  role : Option String
deriving DecidableEq, Repr

/-- A stored user document, as built by the `POST /users` handler. -/
structure UserDoc where
  name : String
  email : String
  photo : String
  role : String
  createdAt : Nat
  last_log_in : Nat
deriving DecidableEq, Repr

/-- JS falsiness of an optional string field: absent or empty. -/
def falsyStr (o : Option String) : Bool := o.getD "" == ""

/-- The `POST /users` handler of `src/index.js` (lines 63-95): 400 when
`email`, `name` or `photo` is falsy; 409 without mutation when a user
with the submitted email exists; otherwise insert
`{name, email, photo, role: user.role || "user", createdAt, last_log_in}`
and answer 201. Returns the HTTP status and the post-state store. -/
def postUsers (store : List UserDoc) (body : UserReq) (now : Nat) :
    Nat × List UserDoc :=
  if falsyStr body.email || falsyStr body.name || falsyStr body.photo then
    (400, store)
  else
    let e := body.email.getD ""
    match store.find? (fun u => u.email == e) with
    | some _ => (409, store)
    | none =>
      (201, store ++
        [⟨body.name.getD "", e, body.photo.getD "",
          if falsyStr body.role then "user" else body.role.getD "",
          now, now⟩])

/-- The rider document built by the `POST /riders` handler of
`src/index.js` (lines 296-310): `{...req.body, status: "pending",
createdAt: new Date()}` — the spread is overridden by the two
server-assigned fields. -/
def mkRider (body : Doc) (now : String) : Doc :=
  setKey (setKey body "status" "pending") "createdAt" now

/-- The `POST /riders` handler: insert the rider built by `mkRider` and
answer 201 (500 only when the insert itself throws, which mutates
nothing). Returns the status and post-state store. -/
def postRiders (store : List Doc) (body : Doc) (now : String)
    (insertFails : Bool) : Nat × List Doc :=
  if insertFails then (500, store)
  else (201, store ++ [mkRider body now])

/-! ### Supporting lemmas about the stores -/

/-- When no parcel carries the requested id, the conditional update
matches nothing and modifies nothing. -/
theorem markPaid_not_found (ps : List Parcel) (i : Nat)
    (h : ∀ p ∈ ps, p.pid ≠ i) : markPaid ps i = (ps, 0, 0) := by
  induction ps with
  | nil => rfl
  | cons p ps ih =>
    have hp : p.pid ≠ i := h p (by simp)
    have : (p.pid == i) = false := by simpa using hp
    simp [markPaid, this, ih (fun q hq => h q (by simp [hq]))]

/-- Setting both status fields of an already fully "paid" parcel is the
identity. -/
theorem set_paid_eq_self (p : Parcel) (h : isPaid p = true) :
    { p with payment_status := "paid", delivery_status := "paid" } = p := by
  obtain ⟨i, pay, del, r⟩ := p
  simp only [isPaid, Bool.and_eq_true, beq_iff_eq] at h
  simp_all

/-- A conditional update that reports `modifiedCount = 0` leaves the
parcel list unchanged. -/
theorem markPaid_mod_zero (ps : List Parcel) (i : Nat)
    (h : (markPaid ps i).2.2 = 0) : (markPaid ps i).1 = ps := by
  induction ps with
  | nil => rfl
  | cons p ps ih =>
    by_cases hp : (p.pid == i) = true
    · simp only [markPaid, hp, if_true] at h ⊢
      by_cases hpaid : isPaid p = true
      · simp [set_paid_eq_self p hpaid]
      · simp [hpaid] at h
    · simp only [markPaid, hp, if_false] at h ⊢
      simp [ih h]

/-- Each parcel is either untouched by the conditional update or has both
status fields set to "paid"; a fully paid parcel is always untouched. -/
theorem markPaid_forall₂ (ps : List Parcel) (i : Nat) :
    List.Forall₂
      (fun p q => (isPaid p = true → q = p) ∧
        (q = p ∨ (q.payment_status = "paid" ∧ q.delivery_status = "paid")))
      ps (markPaid ps i).1 := by
  induction ps with
  | nil => exact List.Forall₂.nil
  | cons p ps ih =>
    by_cases hp : (p.pid == i) = true
    · simp only [markPaid, hp, if_true]
      refine List.Forall₂.cons ⟨fun hpaid => set_paid_eq_self p hpaid, Or.inr ⟨rfl, rfl⟩⟩ ?_
      exact List.forall₂_same.mpr (fun q _ => ⟨fun _ => rfl, Or.inl rfl⟩)
    · simp only [markPaid, hp, if_false]
      exact List.Forall₂.cons ⟨fun _ => rfl, Or.inl rfl⟩ ih

/-! ### Claim theorems: the payment flow -/

/-- C1: a `POST /payments` call whose `transactionId` already has a
Payment record answers 409 (DuplicateTransaction) and leaves both the
parcel store and the payment store unchanged, executing no mutating
store operation. -/
theorem recordPayment_duplicate_rejected (fail : FailSpec) (st : St)
    (req : PayReq) (now : Nat) (hf : fail.findFails = false)
    (h : ∃ q ∈ st.payments, q.transactionId = req.transactionId) :
    (recordPayment fail st req now).status = 409 ∧
    (recordPayment fail st req now).st = st ∧
    (recordPayment fail st req now).trace = [] := by
  obtain ⟨q, hq, he⟩ := h
  have hsome : (findByTx st.payments req.transactionId).isSome := by
    unfold findByTx
    exact List.find?_isSome.mpr ⟨q, hq, by simp [he]⟩
  unfold recordPayment
  cases hx : findByTx st.payments req.transactionId with
  | none => rw [hx] at hsome; simp at hsome
  | some p => simp [hf, hx]

/-- C1 witness: a concrete duplicate transaction is rejected with 409 and
no mutation. -/
theorem recordPayment_duplicate_rejected_witness :
    (recordPayment ⟨false, false, false⟩
        ⟨[], [⟨1, "a@b.com", 500, "card", "tx-1", 0⟩]⟩
        ⟨1, "a@b.com", 500, "card", "tx-1"⟩ 3).status = 409 ∧
    (recordPayment ⟨false, false, false⟩
        ⟨[], [⟨1, "a@b.com", 500, "card", "tx-1", 0⟩]⟩
        ⟨1, "a@b.com", 500, "card", "tx-1"⟩ 3).st =
      ⟨[], [⟨1, "a@b.com", 500, "card", "tx-1", 0⟩]⟩ ∧
    (recordPayment ⟨false, false, false⟩
        ⟨[], [⟨1, "a@b.com", 500, "card", "tx-1", 0⟩]⟩
        ⟨1, "a@b.com", 500, "card", "tx-1"⟩ 3).trace = [] :=
  recordPayment_duplicate_rejected _ _ _ _ rfl
    ⟨⟨1, "a@b.com", 500, "card", "tx-1", 0⟩, by simp, rfl⟩

/-- C2: a successful (201) `POST /payments` call executes exactly one
parcel mutation and exactly one payment insertion, the parcel mutation
strictly first, and appends exactly the one payment document built from
the request. -/
theorem recordPayment_success_order (fail : FailSpec) (st : St)
    (req : PayReq) (now : Nat)
    (h : (recordPayment fail st req now).status = 201) :
    (recordPayment fail st req now).trace =
      [StoreEvent.parcelUpdate req.parcelId,
       StoreEvent.paymentInsert req.transactionId] ∧
    (recordPayment fail st req now).st.payments =
      st.payments ++ [⟨req.parcelId, req.email, req.amount,
        req.paymentMethod, req.transactionId, now⟩] := by
  unfold recordPayment at h ⊢
  by_cases hf : fail.findFails = true
  · simp [hf] at h
  · simp only [Bool.not_eq_true] at hf
    simp only [hf, Bool.false_eq_true, if_false] at h ⊢
    cases hx : findByTx st.payments req.transactionId with
    | some q => simp [hx] at h
    | none =>
      simp only [hx] at h ⊢
      by_cases hu : fail.updateFails = true
      · simp [hu] at h
      · simp only [Bool.not_eq_true] at hu
        simp only [hu, Bool.false_eq_true, if_false] at h ⊢
        by_cases hm : ((markPaid st.parcels req.parcelId).2.2 == 0) = true
        · simp [hm] at h
        · simp only [hm, Bool.false_eq_true, if_false] at h ⊢
          by_cases hi : fail.insertFails = true
          · simp [hi] at h
          · simp only [Bool.not_eq_true] at hi
            simp [hi]

/-- C2 witness: a concrete successful call has the mutation-then-insert
trace and the appended payment document. -/
theorem recordPayment_success_order_witness :
    (recordPayment ⟨false, false, false⟩
        ⟨[⟨1, "unpaid", "pending", []⟩], []⟩
        ⟨1, "a@b.com", 500, "card", "tx-1"⟩ 7).trace =
      [StoreEvent.parcelUpdate 1, StoreEvent.paymentInsert "tx-1"] ∧
    (recordPayment ⟨false, false, false⟩
        ⟨[⟨1, "unpaid", "pending", []⟩], []⟩
        ⟨1, "a@b.com", 500, "card", "tx-1"⟩ 7).st.payments =
      [] ++ [⟨1, "a@b.com", 500, "card", "tx-1", 7⟩] :=
  recordPayment_success_order _ _ _ _ rfl

/-- C3: a `POST /payments` call whose `parcelId` references no existing
parcel never inserts a payment record: the whole state is unchanged and
the call does not succeed (the conditional parcel update reports zero
modifications before any payment persistence is attempted). -/
theorem recordPayment_missing_parcel (fail : FailSpec) (st : St)
    (req : PayReq) (now : Nat)
    (h : ∀ p ∈ st.parcels, p.pid ≠ req.parcelId) :
    (recordPayment fail st req now).st = st ∧
    (recordPayment fail st req now).status ≠ 201 := by
  have hmp := markPaid_not_found st.parcels req.parcelId h
  unfold recordPayment
  by_cases hf : fail.findFails = true
  · simp [hf]
  · simp only [Bool.not_eq_true] at hf
    simp only [hf, Bool.false_eq_true, if_false]
    cases hx : findByTx st.payments req.transactionId with
    | some q => simp
    | none =>
      by_cases hu : fail.updateFails = true
      · simp [hu]
      · simp only [Bool.not_eq_true] at hu
        simp [hu, hmp]

/-- C3 witness: a concrete call against an absent parcel id leaves the
state unchanged and does not answer 201. -/
theorem recordPayment_missing_parcel_witness :
    (recordPayment ⟨false, false, false⟩
        ⟨[⟨1, "unpaid", "pending", []⟩], []⟩
        ⟨2, "a@b.com", 500, "card", "tx-1"⟩ 7).st =
      ⟨[⟨1, "unpaid", "pending", []⟩], []⟩ ∧
    (recordPayment ⟨false, false, false⟩
        ⟨[⟨1, "unpaid", "pending", []⟩], []⟩
        ⟨2, "a@b.com", 500, "card", "tx-1"⟩ 7).status ≠ 201 :=
  recordPayment_missing_parcel _ _ _ _ (by decide)

/-- C4: across any single `POST /payments` call, every parcel whose
payment fields already read "paid" is left exactly as it was (so a paid
parcel is never modified again and never reverts to unpaid), and any
parcel the call does change is changed only to the fully "paid" state —
the unpaid→paid transition therefore happens at most once per parcel
through this flow. -/
theorem recordPayment_paid_stable (fail : FailSpec) (st : St)
    (req : PayReq) (now : Nat) :
    List.Forall₂
      (fun p q => (isPaid p = true → q = p) ∧
        (q = p ∨ (q.payment_status = "paid" ∧ q.delivery_status = "paid")))
      st.parcels (recordPayment fail st req now).st.parcels := by
  have hrefl : List.Forall₂
      (fun p q => (isPaid p = true → q = p) ∧
        (q = p ∨ (q.payment_status = "paid" ∧ q.delivery_status = "paid")))
      st.parcels st.parcels :=
    List.forall₂_same.mpr (fun q _ => ⟨fun _ => rfl, Or.inl rfl⟩)
  unfold recordPayment
  by_cases hf : fail.findFails = true
  · simp only [hf, if_true]
    exact hrefl
  · simp only [Bool.not_eq_true] at hf
    simp only [hf, Bool.false_eq_true, if_false]
    cases hx : findByTx st.payments req.transactionId with
    | some q => exact hrefl
    | none =>
      by_cases hu : fail.updateFails = true
      · simp only [hu, if_true]
        exact hrefl
      · simp only [Bool.not_eq_true] at hu
        simp only [hu, Bool.false_eq_true, if_false]
        by_cases hm : ((markPaid st.parcels req.parcelId).2.2 == 0) = true
        · simpa [hm] using markPaid_forall₂ st.parcels req.parcelId
        · simp only [hm, Bool.false_eq_true, if_false]
          by_cases hi : fail.insertFails = true
          · simpa [hi] using markPaid_forall₂ st.parcels req.parcelId
          · simp only [Bool.not_eq_true] at hi
            simpa [hi] using markPaid_forall₂ st.parcels req.parcelId

/-- C7: `POST /payments` maps every outcome to the specified HTTP status
and body — 201 with `{message, insertedId}` exactly on success, 409
exactly on a duplicate `transactionId`, 404 exactly when the conditional
parcel update modified nothing (parcel missing or already paid), and 500
exactly when an executed store call failed; no other status occurs. -/
theorem recordPayment_status_spec (fail : FailSpec) (st : St)
    (req : PayReq) (now : Nat) :
    ((recordPayment fail st req now).status = 201 ∨
     (recordPayment fail st req now).status = 404 ∨
     (recordPayment fail st req now).status = 409 ∨
     (recordPayment fail st req now).status = 500) ∧
    ((recordPayment fail st req now).status = 409 ↔
      fail.findFails = false ∧
      (findByTx st.payments req.transactionId).isSome = true) ∧
    ((recordPayment fail st req now).status = 404 ↔
      fail.findFails = false ∧
      findByTx st.payments req.transactionId = none ∧
      fail.updateFails = false ∧
      (markPaid st.parcels req.parcelId).2.2 = 0) ∧
    ((recordPayment fail st req now).status = 201 ↔
      fail.findFails = false ∧
      findByTx st.payments req.transactionId = none ∧
      fail.updateFails = false ∧
      (markPaid st.parcels req.parcelId).2.2 ≠ 0 ∧
      fail.insertFails = false) ∧
    ((recordPayment fail st req now).status = 500 →
      fail.findFails = true ∨ fail.updateFails = true ∨
      fail.insertFails = true) ∧
    ((recordPayment fail st req now).status = 201 →
      (recordPayment fail st req now).insertedId = some st.payments.length ∧
      (recordPayment fail st req now).message =
        "Payment recorded and parcel marked as paid") ∧
    ((recordPayment fail st req now).status = 409 →
      (recordPayment fail st req now).message =
        "Duplicate transaction. Already paid.") ∧
    ((recordPayment fail st req now).status = 404 →
      (recordPayment fail st req now).message =
        "Parcel not found or already paid") := by
  unfold recordPayment
  by_cases hf : fail.findFails = true
  · simp [hf]
  · simp only [Bool.not_eq_true] at hf
    simp only [hf, Bool.false_eq_true, if_false]
    cases hx : findByTx st.payments req.transactionId with
    | some q => simp
    | none =>
      by_cases hu : fail.updateFails = true
      · simp [hu]
      · simp only [Bool.not_eq_true] at hu
        simp only [hu, Bool.false_eq_true, if_false]
        by_cases hm : (markPaid st.parcels req.parcelId).2.2 = 0
        · simp [hm]
        · have hmb : ((markPaid st.parcels req.parcelId).2.2 == 0) = false := by
            simpa using hm
          simp only [hmb, Bool.false_eq_true, if_false]
          by_cases hi : fail.insertFails = true
          · simp [hi, hm]
          · simp only [Bool.not_eq_true] at hi
            simp [hi, hm]

/-! ### Claim theorems: listing payments -/

/-- C5: a `GET /payments` request whose verified token identity differs
from the `email` query parameter (including an absent parameter) is
answered 403 with no payment data; payment data is therefore only ever
returned when the caller's identity matches the requested email. -/
theorem getPayments_identity_mismatch (userEmail : String)
    (email : Option String) (page limit : Nat) (st : St)
    (h : email ≠ some userEmail) :
    (getPayments userEmail email page limit st).status = 403 ∧
    (getPayments userEmail email page limit st).body = none := by
  cases email with
  | none => simp [getPayments]
  | some e =>
    have hne : (userEmail == e) = false := by
      simp only [beq_eq_false_iff_ne, ne_eq]
      intro heq
      exact h (by simp [heq])
    simp [getPayments, hne]

/-- C5 witness: a concrete mismatched request is answered 403 with no
data. -/
theorem getPayments_identity_mismatch_witness :
    (getPayments "a@b.com" (some "x@y.z") 1 10 ⟨[], []⟩).status = 403 ∧
    (getPayments "a@b.com" (some "x@y.z") 1 10 ⟨[], []⟩).body = none :=
  getPayments_identity_mismatch _ _ _ _ _ (by simp)

/-- C6: a matched `GET /payments` request returns exactly the slice of
that email's payments sorted by `paid_at` descending that skips the
first `(page-1)*limit` records and holds at most `limit` records, with
`total` the full count for the email independent of the page; an email
with no payments yields an empty list (and hence total 0). -/
theorem getPayments_pagination (e : String) (page limit : Nat) (st : St)
    (_hp : 1 ≤ page) :
    ∃ items : List Payment,
      getPayments e (some e) page limit st =
        ⟨200, some (items,
          (st.payments.filter (fun p => p.email == e)).length)⟩ ∧
      items = (((st.payments.filter (fun p => p.email == e)).mergeSort
        paidDesc).drop ((page - 1) * limit)).take limit ∧
      items.length ≤ limit ∧
      List.Pairwise (fun a b => b.paid_at ≤ a.paid_at) items ∧
      (∀ p ∈ items, p.email = e) ∧
      ((st.payments.filter (fun p => p.email == e)) = [] → items = []) := by
  refine ⟨_, ?_, rfl, ?_, ?_, ?_, ?_⟩
  · simp [getPayments]
  · rw [List.length_take]
    exact min_le_left _ _
  · have hs : List.Pairwise (fun a b => paidDesc a b = true)
        ((st.payments.filter (fun p => p.email == e)).mergeSort paidDesc) := by
      refine List.sorted_mergeSort ?_ ?_ _
      · intro a b c hab hbc
        exact decide_eq_true
          (le_trans (of_decide_eq_true hbc) (of_decide_eq_true hab))
      · intro a b
        rcases Nat.le_total b.paid_at a.paid_at with h | h
        · simp [paidDesc, h]
        · simp [paidDesc, h]
    have hsub : List.Sublist
        ((((st.payments.filter (fun p => p.email == e)).mergeSort
          paidDesc).drop ((page - 1) * limit)).take limit)
        ((st.payments.filter (fun p => p.email == e)).mergeSort paidDesc) :=
      List.Sublist.trans (List.take_sublist ..) (List.drop_sublist ..)
    exact (hs.sublist hsub).imp (fun h => of_decide_eq_true h)
  · intro p hp
    have hmem : p ∈ (st.payments.filter (fun p => p.email == e)).mergeSort
        paidDesc :=
      List.mem_of_mem_drop (List.mem_of_mem_take hp)
    have hmem2 : p ∈ st.payments.filter (fun p => p.email == e) :=
      (List.mergeSort_perm ..).mem_iff.mp hmem
    exact eq_of_beq (List.mem_filter.mp hmem2).2
  · intro hnil
    simp [hnil]

/-- C6 witness: a concrete matched request over three payments for the
email, page 2 and limit 2, satisfies the pagination contract. -/
theorem getPayments_pagination_witness :
    1 ≤ 2 ∧
    ∃ items : List Payment,
      getPayments "a@b.com" (some "a@b.com") 2 2
          ⟨[], [⟨1, "a@b.com", 1, "card", "t1", 5⟩,
                ⟨1, "a@b.com", 1, "card", "t2", 9⟩,
                ⟨1, "a@b.com", 1, "card", "t3", 1⟩,
                ⟨1, "other", 1, "card", "t4", 3⟩]⟩ =
        ⟨200, some (items,
          (([⟨1, "a@b.com", 1, "card", "t1", 5⟩,
             ⟨1, "a@b.com", 1, "card", "t2", 9⟩,
             ⟨1, "a@b.com", 1, "card", "t3", 1⟩,
             ⟨1, "other", 1, "card", "t4", 3⟩] :
              List Payment).filter (fun p => p.email == "a@b.com")).length)⟩ ∧
      items = (((([⟨1, "a@b.com", 1, "card", "t1", 5⟩,
             ⟨1, "a@b.com", 1, "card", "t2", 9⟩,
             ⟨1, "a@b.com", 1, "card", "t3", 1⟩,
             ⟨1, "other", 1, "card", "t4", 3⟩] :
              List Payment).filter (fun p => p.email == "a@b.com")).mergeSort
        paidDesc).drop ((2 - 1) * 2)).take 2 ∧
      items.length ≤ 2 ∧
      List.Pairwise (fun a b => b.paid_at ≤ a.paid_at) items ∧
      (∀ p ∈ items, p.email = "a@b.com") ∧
      ((([⟨1, "a@b.com", 1, "card", "t1", 5⟩,
          ⟨1, "a@b.com", 1, "card", "t2", 9⟩,
          ⟨1, "a@b.com", 1, "card", "t3", 1⟩,
          ⟨1, "other", 1, "card", "t4", 3⟩] :
           List Payment).filter (fun p => p.email == "a@b.com")) = [] →
        items = []) :=
  ⟨by decide, getPayments_pagination "a@b.com" 2 2 _ (by decide)⟩

/-! ### Supporting lemmas about generic documents -/

/-- Overwriting occurrences of one key does not disturb the search for a
different key. -/
theorem find?_map_overwrite_ne (d : Doc) (k v k2 : String)
    (hk : (k == k2) = false) :
    List.find? (fun kv => kv.1 == k2)
      (d.map (fun kv => if kv.1 == k then (k, v) else kv)) =
    List.find? (fun kv => kv.1 == k2) d := by
  rw [List.find?_map]
  have hpf : ((fun kv => kv.1 == k2) ∘
      fun kv => if kv.1 == k then (k, v) else kv) =
      (fun kv : String × String => kv.1 == k2) := by
    funext kv
    by_cases hkv : (kv.1 == k) = true
    · have h1 : kv.1 = k := by simpa using hkv
      simp [Function.comp, hkv, h1, hk]
    · have hkvf : (kv.1 == k) = false := by simpa using hkv
      simp [Function.comp, hkvf]
  rw [hpf]
  cases hd : List.find? (fun kv => kv.1 == k2) d with
  | none => rfl
  | some q =>
    have hq := List.find?_some hd
    have hqk : (q.1 == k) = false := by
      have h2 : q.1 = k2 := by simpa using hq
      have h3 : k ≠ k2 := by simpa using hk
      rw [h2]
      simpa using fun he => h3 he.symm
    have hne : q.1 ≠ k := by simpa using hqk
    simp [hne]

/-- When the key occurs in the document, overwriting it makes the search
for that key find the new pair. -/
theorem find?_map_overwrite_self (d : Doc) (k v : String)
    (hpres : (List.find? (fun kv => kv.1 == k) d).isSome = true) :
    List.find? (fun kv => kv.1 == k)
      (d.map (fun kv => if kv.1 == k then (k, v) else kv)) =
    some (k, v) := by
  rw [List.find?_map]
  have hpf : ((fun kv => kv.1 == k) ∘
      fun kv => if kv.1 == k then (k, v) else kv) =
      (fun kv : String × String => kv.1 == k) := by
    funext kv
    by_cases hkv : (kv.1 == k) = true
    · simp [Function.comp, hkv]
    · have hkvf : (kv.1 == k) = false := by simpa using hkv
      simp [Function.comp, hkvf]
  rw [hpf]
  cases hd : List.find? (fun kv => kv.1 == k) d with
  | none => rw [hd] at hpres; simp at hpres
  | some q =>
    have hq := List.find?_some hd
    have he : q.1 = k := by simpa using hq
    simp [he]

/-- Setting one field leaves every other field of the document
unchanged. -/
theorem getKey_setKey_ne (d : Doc) (k v k2 : String) (h : k ≠ k2) :
    getKey (setKey d k v) k2 = getKey d k2 := by
  have hk : (k == k2) = false := by simpa using h
  unfold setKey
  by_cases hpres : (List.find? (fun kv => kv.1 == k) d).isSome = true
  · simp only [hpres, if_true]
    unfold getKey
    rw [find?_map_overwrite_ne d k v k2 hk]
  · have hpres2 : (List.find? (fun kv => kv.1 == k) d).isSome = false := by
      cases hd : List.find? (fun kv => kv.1 == k) d with
      | none => rfl
      | some q => rw [hd] at hpres; simp at hpres
    simp only [hpres2, Bool.false_eq_true, if_false]
    unfold getKey
    rw [List.find?_append]
    have h1 : List.find? (fun kv => kv.1 == k2) [(k, v)] = none := by
      simp [hk]
    rw [h1, Option.or_none]

/-- Setting a field makes that field read the new value. -/
theorem getKey_setKey_self (d : Doc) (k v : String) :
    getKey (setKey d k v) k = some v := by
  unfold setKey
  by_cases hpres : (List.find? (fun kv => kv.1 == k) d).isSome = true
  · simp only [hpres, if_true]
    unfold getKey
    rw [find?_map_overwrite_self d k v hpres]
    rfl
  · have hf : List.find? (fun kv => kv.1 == k) d = none := by
      cases hd : List.find? (fun kv => kv.1 == k) d with
      | none => rfl
      | some q => rw [hd] at hpres; simp at hpres
    have hpres2 : (List.find? (fun kv => kv.1 == k) d).isSome = false := by
      simp [hf]
    simp only [hpres2, Bool.false_eq_true, if_false]
    unfold getKey
    rw [List.find?_append, hf]
    simp

/-- A multi-field `$set` leaves every field whose key the update document
does not carry unchanged. -/
theorem getKey_setAll_unset (upd : Doc) (d : Doc) (k : String)
    (h : ∀ kv ∈ upd, kv.1 ≠ k) : getKey (setAll d upd) k = getKey d k := by
  induction upd generalizing d with
  | nil => rfl
  | cons kv upd ih =>
    have h1 : kv.1 ≠ k := h kv (by simp)
    calc getKey (setAll d (kv :: upd)) k
        = getKey (setAll (setKey d kv.1 kv.2) upd) k := rfl
      _ = getKey (setKey d kv.1 kv.2) k :=
          ih _ (fun q hq => h q (by simp [hq]))
      _ = getKey d k := getKey_setKey_ne _ _ _ _ h1

/-- `updateOne` over the store: each stored document is either untouched
or has the update document applied to it; ids are never rewritten. -/
theorem patchFirst_forall₂ (store : List (Nat × Doc)) (i : Nat)
    (upd : Doc) :
    List.Forall₂
      (fun p q => p.1 = q.1 ∧ (q.2 = p.2 ∨ q.2 = setAll p.2 upd))
      store (patchFirst store i upd).1 := by
  induction store with
  | nil => exact List.Forall₂.nil
  | cons p ps ih =>
    by_cases hp : (p.1 == i) = true
    · simp only [patchFirst, hp, if_true]
      exact List.Forall₂.cons ⟨rfl, Or.inr rfl⟩
        (List.forall₂_same.mpr (fun q _ => ⟨rfl, Or.inl rfl⟩))
    · simp only [patchFirst, hp, if_false]
      exact List.Forall₂.cons ⟨rfl, Or.inl rfl⟩ ih

/-! ### Claim theorem: patching a parcel -/

/-- C8: whatever the `PATCH /parcels/:id` body contains, every stored
parcel keeps its id, and its `_id`, `created_by`, `tracking_id` and
`creation_date` fields are unchanged by the operation (those keys are
stripped from the update before the `$set`); fields whose key the body
does not carry are also never modified. -/
theorem patchParcel_frame (store : List (Nat × Doc)) (i : Nat)
    (body : Doc) :
    List.Forall₂
      (fun p q => p.1 = q.1 ∧
        (∀ k, isProtectedKey k = true → getKey q.2 k = getKey p.2 k) ∧
        (∀ k, (∀ kv ∈ body, kv.1 ≠ k) → getKey q.2 k = getKey p.2 k))
      store (patchParcel store i body).2 := by
  unfold patchParcel
  by_cases hm : ((patchFirst store i (stripProtected body)).2 == 0) = true
  · simp only [hm, if_true]
    exact List.forall₂_same.mpr
      (fun q _ => ⟨rfl, fun _ _ => rfl, fun _ _ => rfl⟩)
  · simp only [hm, Bool.false_eq_true, if_false]
    refine (patchFirst_forall₂ store i (stripProtected body)).imp ?_
    rintro p q ⟨hid, hq | hq⟩
    · exact ⟨hid, fun _ _ => by rw [hq], fun _ _ => by rw [hq]⟩
    · refine ⟨hid, ?_, ?_⟩
      · intro k hk
        rw [hq]
        refine getKey_setAll_unset _ _ _ ?_
        intro kv hkv
        have : isProtectedKey kv.1 = false := by
          have := List.mem_filter.mp hkv
          simpa using this.2
        intro he
        rw [he] at this
        rw [this] at hk
        exact Bool.false_ne_true hk
      · intro k hk
        rw [hq]
        refine getKey_setAll_unset _ _ _ ?_
        intro kv hkv
        exact hk kv (List.mem_filter.mp hkv).1

/-! ### Claim theorems: users and riders -/

/-- C9: `POST /users` never inserts a second user document for an email
already present: when the submitted email belongs to a stored user the
store is left unchanged and the request does not succeed, so the
at-most-one-user-per-email invariant is preserved by every call. -/
theorem postUsers_unique_email (store : List UserDoc) (body : UserReq)
    (now : Nat)
    (h : List.Pairwise (fun u v : UserDoc => u.email ≠ v.email) store) :
    List.Pairwise (fun u v : UserDoc => u.email ≠ v.email)
      (postUsers store body now).2 ∧
    (∀ u ∈ store, body.email = some u.email →
      (postUsers store body now).2 = store ∧
      (postUsers store body now).1 ≠ 201) := by
  unfold postUsers
  by_cases hval : (falsyStr body.email || falsyStr body.name ||
      falsyStr body.photo) = true
  · simp only [hval, if_true]
    exact ⟨h, fun u _ _ => ⟨trivial, by decide⟩⟩
  · have hvalf : (falsyStr body.email || falsyStr body.name ||
        falsyStr body.photo) = false := by simpa using hval
    simp only [hvalf, Bool.false_eq_true, if_false]
    cases hf : store.find? (fun u => u.email == body.email.getD "") with
    | some u =>
      simp only [hf]
      exact ⟨h, fun u _ _ => ⟨trivial, by decide⟩⟩
    | none =>
      simp only [hf]
      constructor
      · rw [List.pairwise_append]
        refine ⟨h, List.pairwise_singleton _ _, ?_⟩
        intro u hu x hx
        have hx2 : x.email = body.email.getD "" := by
          simp only [List.mem_singleton] at hx
          rw [hx]
        have hne := List.find?_eq_none.mp hf u hu
        rw [hx2]
        simpa using hne
      · intro u hu he
        exfalso
        apply List.find?_eq_none.mp hf u hu
        rw [he]
        simp

/-- C9 witness: a concrete duplicate-email registration preserves the
invariant and leaves the store unchanged without succeeding. -/
theorem postUsers_unique_email_witness :
    List.Pairwise (fun u v : UserDoc => u.email ≠ v.email)
      (postUsers [⟨"n", "e@x", "p", "user", 3, 3⟩]
        ⟨some "n2", some "e@x", some "p2", none⟩ 4).2 ∧
    (∀ u ∈ [(⟨"n", "e@x", "p", "user", 3, 3⟩ : UserDoc)],
      (some "e@x" : Option String) = some u.email →
      (postUsers [⟨"n", "e@x", "p", "user", 3, 3⟩]
        ⟨some "n2", some "e@x", some "p2", none⟩ 4).2 =
        [⟨"n", "e@x", "p", "user", 3, 3⟩] ∧
      (postUsers [⟨"n", "e@x", "p", "user", 3, 3⟩]
        ⟨some "n2", some "e@x", some "p2", none⟩ 4).1 ≠ 201) :=
  postUsers_unique_email _ _ _ (by simp)

/-- C10: every rider document created by `POST /riders` is stored with
status "pending" and the server-assigned creation timestamp, whatever
`status` or `createdAt` the request body supplied: the server's spread
`{...req.body, status: "pending", createdAt: new Date()}` overrides
both, the successful call appends exactly that document, and a failed
insert stores nothing. -/
theorem postRiders_pending_created (store : List Doc) (body : Doc)
    (now : String) :
    getKey (mkRider body now) "status" = some "pending" ∧
    getKey (mkRider body now) "createdAt" = some now ∧
    postRiders store body now false = (201, store ++ [mkRider body now]) ∧
    postRiders store body now true = (500, store) := by
  refine ⟨?_, ?_, rfl, rfl⟩
  · unfold mkRider
    rw [getKey_setKey_ne _ _ _ _ (by decide), getKey_setKey_self]
  · unfold mkRider
    rw [getKey_setKey_self]

end ZapShift
